import Mathlib

/-!
Verification of the audio decode/encode and tempo-correction pipeline of a
text-to-speech web application.  The container codec (`pcmToWav`,
`audioBufferToWav`), the MIME sample-rate extraction, the worker chunk
pipeline and the response-handling paths are shallowly embedded below,
following the JavaScript source; byte sequences are `List ℕ` (each entry a
byte value), 16-bit PCM samples are `ℤ`, and floating-point samples are
modelled exactly as `ℚ`.
-/

/-- Little-endian encoding of a 16-bit field, as written by `DataView.setUint16`
with `littleEndian = true` (the value is reduced modulo 2^16 by the two bytes). -/
def u16le (v : ℕ) : List ℕ := [v % 256, v / 256 % 256]

/-- Little-endian encoding of a 32-bit field, as written by `DataView.setUint32`
with `littleEndian = true` (the value is reduced modulo 2^32 by the four bytes). -/
def u32le (v : ℕ) : List ℕ :=
  [v % 256, v / 256 % 256, v / 65536 % 256, v / 16777216 % 256]

/-- Little-endian encoding of a signed 16-bit sample, as written by
`DataView.setInt16`: the two bytes of the value's two's complement. -/
def i16le (s : ℤ) : List ℕ := u16le (s % 65536).toNat

/-- The `pcmToWav` encoder of `src/App.jsx` (identical in the other revisions):
a 44-byte RIFF/WAVE header for mono 16-bit PCM followed by the raw
little-endian samples.  Field order and sizes mirror the `writeString` /
`setUint16` / `setUint32` calls at their offsets. -/
def pcmToWav (pcmData : List ℤ) (sampleRate : ℕ) : List ℕ :=
  let numSamples := pcmData.length
  let numChannels := 1
  let bytesPerSample := 2
  let blockAlign := numChannels * bytesPerSample
  let byteRate := sampleRate * blockAlign
  let dataSize := numSamples * bytesPerSample
  [82, 73, 70, 70]
    ++ u32le (36 + dataSize)
    ++ [87, 65, 86, 69]
    ++ [102, 109, 116, 32]
    ++ u32le 16
    ++ u16le 1
    ++ u16le numChannels
    ++ u32le sampleRate
    ++ u32le byteRate
    ++ u16le blockAlign
    ++ u16le 16
    ++ [100, 97, 116, 97]
    ++ u32le dataSize
    ++ pcmData.flatMap i16le

/-- The byte of a byte sequence at index `i` (0 past the end). -/
def byteAt (bytes : List ℕ) (i : ℕ) : ℕ := (bytes.drop i).headD 0

/-- Read an unsigned 32-bit little-endian integer from a byte sequence at a
given offset. -/
def readU32le (bytes : List ℕ) (off : ℕ) : ℕ :=
  byteAt bytes off + byteAt bytes (off + 1) * 256 + byteAt bytes (off + 2) * 65536 +
    byteAt bytes (off + 3) * 16777216

/-- Decode one little-endian signed 16-bit value from two byte values (the view
an `Int16Array` takes of two consecutive bytes on a little-endian platform). -/
def readI16le (b0 b1 : ℕ) : ℤ :=
  if b0 + 256 * b1 < 32768 then ((b0 + 256 * b1 : ℕ) : ℤ)
  else ((b0 + 256 * b1 : ℕ) : ℤ) - 65536

/-- Decode a byte sequence as consecutive little-endian signed 16-bit samples;
a trailing odd byte is ignored (it cannot arise from a well-formed payload). -/
def decodePCM16 : List ℕ → List ℤ
  | b0 :: b1 :: rest => readI16le b0 b1 :: decodePCM16 rest
  | _ => []

theorem sum_map_length_i16le (S : List ℤ) :
    (List.map (List.length ∘ i16le) S).sum = 2 * S.length := by
  induction S with
  | nil => rfl
  | cons s S ih => simp [i16le, u16le, ih]; omega

theorem readI16le_bytes (s : ℤ) (h0 : -32768 ≤ s) (h1 : s < 32768) :
    readI16le ((s % 65536).toNat % 256) ((s % 65536).toNat / 256 % 256) = s := by
  simp only [readI16le]
  split <;> omega

theorem decodePCM16_flatMap (S : List ℤ) (h : ∀ s ∈ S, -32768 ≤ s ∧ s < 32768) :
    decodePCM16 (S.flatMap i16le) = S := by
  induction S with
  | nil => rfl
  | cons s S ih =>
    have hs := h s (by simp)
    have hrest : ∀ x ∈ S, -32768 ≤ x ∧ x < 32768 := fun x hx => h x (by simp [hx])
    show decodePCM16 (i16le s ++ S.flatMap i16le) = s :: S
    show readI16le ((s % 65536).toNat % 256) ((s % 65536).toNat / 256 % 256)
        :: decodePCM16 (S.flatMap i16le) = s :: S
    rw [readI16le_bytes s hs.1 hs.2, ih hrest]

set_option maxHeartbeats 4000000 in
/-- Claim C5: for every mono 16-bit sample array and positive sample rate that
fit the 32-bit header fields, decoding the header of `pcmToWav` yields the
sample rate at bytes 24-27 and the data byte length `2 × len(S)` at bytes
40-43 (hence the sample count `len(S)`). -/
theorem pcm_header_fields_c5 (S : List ℤ) (r : ℕ) (hr0 : 0 < r)
    (hr : r < 4294967296) (hn : 2 * S.length < 4294967296) :
    readU32le (pcmToWav S r) 24 = r ∧ readU32le (pcmToWav S r) 40 = 2 * S.length := by
  have b0 : byteAt (pcmToWav S r) 24 = r % 256 := rfl
  have b1 : byteAt (pcmToWav S r) (24 + 1) = r / 256 % 256 := rfl
  have b2 : byteAt (pcmToWav S r) (24 + 2) = r / 65536 % 256 := rfl
  have b3 : byteAt (pcmToWav S r) (24 + 3) = r / 16777216 % 256 := rfl
  have d0 : byteAt (pcmToWav S r) 40 = S.length * 2 % 256 := rfl
  have d1 : byteAt (pcmToWav S r) (40 + 1) = S.length * 2 / 256 % 256 := rfl
  have d2 : byteAt (pcmToWav S r) (40 + 2) = S.length * 2 / 65536 % 256 := rfl
  have d3 : byteAt (pcmToWav S r) (40 + 3) = S.length * 2 / 16777216 % 256 := rfl
  constructor
  · simp only [readU32le]
    rw [b0, b1, b2, b3]
    omega
  · simp only [readU32le]
    rw [d0, d1, d2, d3]
    omega

/-- Witness for C5: the concrete scenario of a 2000-sample payload at rate
24000 — bytes 24-27 decode to 24000 and bytes 40-43 decode to 4000. -/
theorem pcm_header_fields_c5_witness :
    (0 < 24000 ∧ 24000 < 4294967296 ∧
      2 * (List.replicate 2000 (0 : ℤ)).length < 4294967296) ∧
    (readU32le (pcmToWav (List.replicate 2000 (0 : ℤ)) 24000) 24 = 24000 ∧
      readU32le (pcmToWav (List.replicate 2000 (0 : ℤ)) 24000) 40 =
        2 * (List.replicate 2000 (0 : ℤ)).length) ∧
    2 * (List.replicate 2000 (0 : ℤ)).length = 4000 :=
  ⟨⟨by norm_num, by norm_num, by rw [List.length_replicate]; norm_num⟩,
    pcm_header_fields_c5 _ 24000 (by norm_num) (by norm_num)
      (by rw [List.length_replicate]; norm_num),
    by rw [List.length_replicate]⟩

/-- Claim C6: re-extracting the payload bytes at offsets 44 onward of
`pcmToWav(S, r)` and reading them back as little-endian signed 16-bit values
reproduces `S` exactly. -/
theorem pcm_payload_roundtrip_c6 (S : List ℤ) (r : ℕ)
    (h : ∀ s ∈ S, -32768 ≤ s ∧ s < 32768) :
    decodePCM16 ((pcmToWav S r).drop 44) = S := by
  have hdrop : (pcmToWav S r).drop 44 = S.flatMap i16le := rfl
  rw [hdrop, decodePCM16_flatMap S h]

/-- Witness for C6: a concrete sample array, including both range extremes,
round-trips bit-for-bit through the container payload. -/
theorem pcm_payload_roundtrip_c6_witness :
    (∀ s ∈ [(1234 : ℤ), -5678, 0, -32768, 32767], -32768 ≤ s ∧ s < 32768) ∧
    decodePCM16 ((pcmToWav [(1234 : ℤ), -5678, 0, -32768, 32767] 8000).drop 44) =
      [(1234 : ℤ), -5678, 0, -32768, 32767] :=
  ⟨by decide, pcm_payload_roundtrip_c6 _ 8000 (by decide)⟩

/-- Claim C7: the byte length of the container produced by `pcmToWav(S, r)` is
exactly `44 + 2 × len(S)`. -/
theorem pcm_container_length_c7 (S : List ℤ) (r : ℕ) :
    (pcmToWav S r).length = 44 + 2 * S.length := by
  simp [pcmToWav, u32le, u16le, sum_map_length_i16le]
  omega

/-- Clamp of a float sample to [-1, 1], as computed by
`Math.max(-1, Math.min(1, channels[i][pos]))` in `audioBufferToWav`. -/
def clamp (x : ℚ) : ℚ := max (-1) (min 1 x)

/-- Truncation toward zero: the effect of JavaScript `| 0` on a number in the
signed 32-bit range (every scaled sample lies in [-32768, 32767]). -/
def truncTowardZero (q : ℚ) : ℤ := if q < 0 then ⌈q⌉ else ⌊q⌋

/-- The per-sample float→int16 conversion of `audioBufferToWav`:
`sample = Math.max(-1, Math.min(1, s)); sample = (0.5 + sample < 0 ? sample * 32768 : sample * 32767) | 0`. -/
def floatSampleToInt16 (x : ℚ) : ℤ :=
  let sample := clamp x
  truncTowardZero (if 1 / 2 + sample < 0 then sample * 32768 else sample * 32767)

/-- The conversion as claim C1 states it: every negative clamped sample is
multiplied by 32768, every non-negative clamped sample by 32767, then the
scaled value is truncated toward zero. -/
def floatSampleToInt16Claimed (x : ℚ) : ℤ :=
  let sample := clamp x
  truncTowardZero (if sample < 0 then sample * 32768 else sample * 32767)

/-- The conversion as the amended claim states it: clamped samples strictly
below -0.5 are multiplied by 32768, all clamped samples at or above -0.5 by
32767, then the scaled value is truncated toward zero. -/
def floatSampleToInt16Amended (x : ℚ) : ℤ :=
  let sample := clamp x
  truncTowardZero (if sample < -(1 / 2) then sample * 32768 else sample * 32767)

/-- Counterexample to claim C1 as stated: the sample -0.25 is negative after
clamping, yet the code scales it by 32767 (giving -8191), not by 32768 (which
would give -8192): the code's branch condition is `0.5 + sample < 0`, i.e. a
threshold of -0.5, not 0. -/
theorem float_scaling_counterexample_c1 :
    floatSampleToInt16 (-(1 / 4)) = -8191 ∧
    floatSampleToInt16Claimed (-(1 / 4)) = -8192 ∧
    floatSampleToInt16 (-(1 / 4)) ≠ floatSampleToInt16Claimed (-(1 / 4)) := by
  have hc : clamp (-(1 / 4)) = -(1 / 4) := by
    unfold clamp
    rw [min_eq_right (by norm_num), max_eq_right (by norm_num)]
  have h1 : floatSampleToInt16 (-(1 / 4)) = -8191 := by
    show truncTowardZero (if 1 / 2 + clamp (-(1 / 4)) < 0 then clamp (-(1 / 4)) * 32768
        else clamp (-(1 / 4)) * 32767) = -8191
    rw [hc, if_neg (by norm_num), truncTowardZero, if_pos (by norm_num),
      show (-(1 / 4) * 32767 : ℚ) = -(32767 / 4) by norm_num, Int.ceil_eq_iff]
    constructor <;> norm_num
  have h2 : floatSampleToInt16Claimed (-(1 / 4)) = -8192 := by
    show truncTowardZero (if clamp (-(1 / 4)) < 0 then clamp (-(1 / 4)) * 32768
        else clamp (-(1 / 4)) * 32767) = -8192
    rw [hc, if_pos (by norm_num), truncTowardZero, if_pos (by norm_num),
      show (-(1 / 4) * 32768 : ℚ) = ((-8192 : ℤ) : ℚ) by norm_num]
    exact Int.ceil_intCast (-8192)
  exact ⟨h1, h2, by rw [h1, h2]; decide⟩

/-- Claim C1 as amended: in `audioBufferToWav` every sample is clamped to
[-1, 1]; clamped samples strictly below -0.5 are scaled by 32768, clamped
samples at or above -0.5 by 32767; the scaled value is truncated toward
zero. -/
theorem float_scaling_amended_c1 (x : ℚ) :
    floatSampleToInt16 x = floatSampleToInt16Amended x := by
  show truncTowardZero (if 1 / 2 + clamp x < 0 then clamp x * 32768 else clamp x * 32767)
      = truncTowardZero (if clamp x < -(1 / 2) then clamp x * 32768 else clamp x * 32767)
  by_cases h : clamp x < -(1 / 2)
  · rw [if_pos (by linarith), if_pos h]
  · rw [if_neg (by linarith), if_neg h]

/-- A decoded audio buffer as `audioBufferToWav` reads it: per-channel sample
data (`getChannelData(i)`) and a sample rate; the JS `buffer.length` is the
frame count of a channel. -/
structure JsAudioBuffer where
  channels : List (List ℚ)
  sampleRate : ℕ

/-- The JS `buffer.length`: frames per channel (channel 0 as reference). -/
def JsAudioBuffer.frameCount (b : JsAudioBuffer) : ℕ := (b.channels.getD 0 []).length

/-- The `audioBufferToWav` encoder of the worker-bearing revision
(`src/unnamed/part_001`): header fields in write order, then frame-major
interleaved samples converted by `floatSampleToInt16`.  The data-size field is
written as `length - pos - 4`, where `pos` is the frame counter, still 0 at
that point. -/
def audioBufferToWav (buffer : JsAudioBuffer) : List ℕ :=
  let numOfChan := buffer.channels.length
  let length := buffer.frameCount * numOfChan * 2 + 44
  let pos := 0
  [82, 73, 70, 70]
    ++ u32le (length - 8)
    ++ [87, 65, 86, 69]
    ++ [102, 109, 116, 32]
    ++ u32le 16
    ++ u16le 1
    ++ u16le numOfChan
    ++ u32le buffer.sampleRate
    ++ u32le (buffer.sampleRate * 2 * numOfChan)
    ++ u16le (numOfChan * 2)
    ++ u16le 16
    ++ [100, 97, 116, 97]
    ++ u32le (length - pos - 4)
    ++ (List.range buffer.frameCount).flatMap (fun p =>
        buffer.channels.flatMap (fun ch => i16le (floatSampleToInt16 (ch.getD p 0))))

/-- Claim C2 fails on the code: for a mono one-frame buffer `audioBufferToWav`
writes 42 — not the payload byte count 2 — into the data-size field at bytes
40-43 (total container length 46, payload 2 bytes), because the field is
computed as `length - pos - 4` with the frame counter `pos` (= 0) instead of
the byte offset; `pcmToWav` writes the correct value 2 for the same single
sample. -/
theorem data_size_field_bug_c2 :
    readU32le (audioBufferToWav ⟨[[0]], 24000⟩) 40 = 42 ∧
    (audioBufferToWav ⟨[[0]], 24000⟩).length = 46 ∧
    readU32le (pcmToWav [(0 : ℤ)] 24000) 40 = 2 :=
  ⟨rfl, rfl, rfl⟩

/-- Duplicate a mono chunk into interleaved two-channel frames, as the worker's
`source.get` builds `stereoChunk` from `monoChunk`. -/
def interleaveDup : List ℚ → List ℚ
  | [] => []
  | x :: xs => x :: x :: interleaveDup xs

/-- Samples of the even (first) channel of an interleaved stereo chunk. -/
def deinterleave0 : List ℚ → List ℚ
  | [] => []
  | [x] => [x]
  | x :: _ :: rest => x :: deinterleave0 rest

/-- Samples of the odd (second) channel of an interleaved stereo chunk. -/
def deinterleave1 : List ℚ → List ℚ
  | [] => []
  | [_] => []
  | _ :: y :: rest => y :: deinterleave1 rest

/-- The worker's `source.get(frameCount)`: `null` once the read position has
reached the end of the mono buffer, otherwise the next at-most-`frameCount`
frames duplicated into an interleaved stereo chunk, with the position advanced
to the end of the slice. -/
def sourceGet (buffer : List ℚ) (frameCount : ℕ) (position : ℕ) :
    Option (List ℚ) × ℕ :=
  if buffer.length ≤ position then (none, position)
  else
    let e := min (position + frameCount) buffer.length
    (some (interleaveDup ((buffer.drop position).take (e - position))), e)

/-- Iterate `sourceGet` over a sequence of requested frame counts, collecting
the emitted chunks until the source reports `null`. -/
def sourceRun (buffer : List ℚ) : List ℕ → ℕ → List (List ℚ)
  | [], _ => []
  | fc :: rest, position =>
    match sourceGet buffer fc position with
    | (none, _) => []
    | (some chunk, pos') => chunk :: sourceRun buffer rest pos'

/-- The worker's do-while loop over `soundtouch_pipe.getSamples`: each emitted
stereo pair contributes its first channel while that channel is non-empty; the
first empty first channel terminates the loop. -/
def collectChunks : List (List ℚ × List ℚ) → List (List ℚ)
  | [] => []
  | c :: rest => if 0 < c.1.length then c.1 :: collectChunks rest else []

/-- The worker's final concatenation of all retained chunks into one result
buffer (the `totalLength` fold followed by `result.set(chunk, offset)`). -/
def workerResult (outputs : List (List ℚ × List ℚ)) : List ℚ :=
  (collectChunks outputs).flatten

theorem deinterleave0_interleaveDup (l : List ℚ) :
    deinterleave0 (interleaveDup l) = l := by
  induction l with
  | nil => rfl
  | cons x xs ih => simp [interleaveDup, deinterleave0, ih]

theorem deinterleave1_interleaveDup (l : List ℚ) :
    deinterleave1 (interleaveDup l) = l := by
  induction l with
  | nil => rfl
  | cons x xs ih => simp [interleaveDup, deinterleave1, ih]

theorem interleaveDup_length (l : List ℚ) :
    (interleaveDup l).length = 2 * l.length := by
  induction l with
  | nil => rfl
  | cons x xs ih => simp [interleaveDup, ih]; omega

theorem sourceRun_consume (buffer : List ℚ) :
    ∀ (requests : List ℕ) (position : ℕ),
      (∀ fc ∈ requests, 1 ≤ fc) → buffer.length ≤ position + requests.sum →
      (sourceRun buffer requests position).flatMap deinterleave0 =
        buffer.drop position := by
  intro requests
  induction requests with
  | nil =>
    intro position _ hsum
    have hle : buffer.length ≤ position := by simpa using hsum
    simp [sourceRun, List.drop_eq_nil_of_le hle]
  | cons fc rest ih =>
    intro position hreq hsum
    by_cases h : buffer.length ≤ position
    · simp [sourceRun, sourceGet, h, List.drop_eq_nil_of_le h]
    · have hsum' : buffer.length ≤ min (position + fc) buffer.length + rest.sum := by
        simp only [List.sum_cons] at hsum
        omega
      have hrec := ih (min (position + fc) buffer.length)
        (fun x hx => hreq x (by simp [hx])) hsum'
      have hdrop : buffer.drop (min (position + fc) buffer.length) =
          (buffer.drop position).drop (min (position + fc) buffer.length - position) := by
        rw [List.drop_drop]
        congr 1
        omega
      simp only [sourceRun, sourceGet, if_neg h, List.flatMap_cons,
        deinterleave0_interleaveDup, hrec, hdrop]
      exact List.take_append_drop _ _

theorem collectChunks_takeWhile (outputs : List (List ℚ × List ℚ)) :
    collectChunks outputs =
      (outputs.takeWhile fun c => decide (0 < c.1.length)).map Prod.fst := by
  induction outputs with
  | nil => rfl
  | cons c rest ih =>
    by_cases h : 0 < c.1.length
    · simp [collectChunks, List.takeWhile_cons, h, ih]
    · simp [collectChunks, List.takeWhile_cons, h]

/-- Claim C3: the worker feeds the mono buffer to the stretch primitive as
interleaved two-channel chunks whose two channels both equal the corresponding
contiguous mono slice, consumed in order in bounded chunks until the buffer is
exhausted; of each processed chunk only the first output channel is retained,
the loop stops at the first empty first channel, and the result is exactly the
concatenation of the retained chunks in emission order. -/
theorem worker_pipeline_c3 (buffer : List ℚ) (requests : List ℕ)
    (outputs : List (List ℚ × List ℚ))
    (hreq : ∀ fc ∈ requests, 1 ≤ fc) (hsum : buffer.length ≤ requests.sum) :
    (∀ fc position chunk pos',
        sourceGet buffer fc position = (some chunk, pos') →
        deinterleave0 chunk = deinterleave1 chunk ∧
        deinterleave0 chunk = (buffer.drop position).take (pos' - position) ∧
        chunk.length ≤ 2 * fc ∧
        pos' = min (position + fc) buffer.length) ∧
    (sourceRun buffer requests 0).flatMap deinterleave0 = buffer ∧
    workerResult outputs =
      ((outputs.takeWhile fun c => decide (0 < c.1.length)).map Prod.fst).flatten := by
  refine ⟨?_, ?_, ?_⟩
  · intro fc position chunk pos' hget
    rw [sourceGet] at hget
    by_cases h : buffer.length ≤ position
    · rw [if_pos h] at hget
      simp at hget
    · rw [if_neg h] at hget
      rw [Prod.mk.injEq] at hget
      obtain ⟨hc, hp⟩ := hget
      rw [Option.some.injEq] at hc
      subst hc
      subst hp
      refine ⟨?_, ?_, ?_, rfl⟩
      · rw [deinterleave0_interleaveDup, deinterleave1_interleaveDup]
      · rw [deinterleave0_interleaveDup]
      · rw [interleaveDup_length]
        have := List.length_take_le (min (position + fc) buffer.length - position)
          (buffer.drop position)
        omega
  · rw [sourceRun_consume buffer requests 0 hreq (by simpa using hsum), List.drop_zero]
  · rw [workerResult, collectChunks_takeWhile]

/-- Witness for C3: a three-sample buffer consumed with two requests of two
frames, and two primitive outputs of which the first is retained. -/
theorem worker_pipeline_c3_witness :
    (∀ fc ∈ [2, 2], 1 ≤ fc) ∧ ([(1 : ℚ), 2, 3].length ≤ [2, 2].sum) ∧
    ((∀ fc position chunk pos',
        sourceGet [(1 : ℚ), 2, 3] fc position = (some chunk, pos') →
        deinterleave0 chunk = deinterleave1 chunk ∧
        deinterleave0 chunk = ([(1 : ℚ), 2, 3].drop position).take (pos' - position) ∧
        chunk.length ≤ 2 * fc ∧
        pos' = min (position + fc) [(1 : ℚ), 2, 3].length) ∧
      (sourceRun [(1 : ℚ), 2, 3] [2, 2] 0).flatMap deinterleave0 = [(1 : ℚ), 2, 3] ∧
      workerResult [([(5 : ℚ)], [(5 : ℚ)]), ([], [])] =
        (([([(5 : ℚ)], [(5 : ℚ)]), ([], [])].takeWhile
            fun c => decide (0 < c.1.length)).map Prod.fst).flatten) :=
  ⟨by decide, by decide, worker_pipeline_c3 _ _ _ (by decide) (by decide)⟩

/-- A message posted by the worker back to the main thread. -/
inductive WorkerMsg where
  | result (samples : List ℚ)
  | error (msg : String)

/-- Try/catch around a body that either completes with a list of posted
messages or throws: a throw transfers control to the handler. -/
def tryCatchPosts (body : Except String (List WorkerMsg))
    (handler : String → List WorkerMsg) : List WorkerMsg :=
  match body with
  | .ok posts => posts
  | .error e => handler e

/-- The worker's `onmessage` handler for one tempo job: pipe construction and
the chunk loop (abstracted as `stretchRun`, which either throws or emits its
finite chunk sequence) run inside `try`; success posts one `{result}` message,
any exception posts one `{error}` message with the prefixed text. -/
def workerOnMessage (stretchRun : Except String (List (List ℚ × List ℚ))) :
    List WorkerMsg :=
  tryCatchPosts
    (stretchRun.map fun outputs => [WorkerMsg.result (workerResult outputs)])
    (fun e => [WorkerMsg.error ("Error dentro del worker: " ++ e)])

/-- Claim C4: for every tempo job the worker posts back exactly one message,
which is a `{result}` exactly when the stretch computation completed and an
`{error}` exactly when it threw — never both and never zero. -/
theorem worker_single_response_c4
    (stretchRun : Except String (List (List ℚ × List ℚ))) :
    (workerOnMessage stretchRun).length = 1 ∧
    ((∃ r, workerOnMessage stretchRun = [WorkerMsg.result r]) ↔
      ∃ o, stretchRun = Except.ok o) ∧
    ((∃ m, workerOnMessage stretchRun = [WorkerMsg.error m]) ↔
      ∃ e, stretchRun = Except.error e) := by
  cases stretchRun with
  | ok o =>
    refine ⟨rfl, ⟨fun _ => ⟨o, rfl⟩, fun _ => ⟨workerResult o, rfl⟩⟩, ?_, ?_⟩
    · rintro ⟨m, hm⟩
      simp [workerOnMessage, tryCatchPosts, Except.map] at hm
    · rintro ⟨e, he⟩
      simp at he
  | error e =>
    refine ⟨rfl, ⟨?_, ?_⟩, ?_⟩
    · rintro ⟨r, hr⟩
      simp [workerOnMessage, tryCatchPosts, Except.map] at hr
    · rintro ⟨o, ho⟩
      simp at ho
    · exact ⟨fun _ => ⟨e, rfl⟩, fun _ => ⟨"Error dentro del worker: " ++ e, rfl⟩⟩

/-- Value of a digit run, as `parseInt(ds, 10)` computes it for an all-digit
string. -/
def digitsToNat (ds : List Char) : ℕ :=
  ds.foldl (fun acc c => acc * 10 + (c.toNat - 48)) 0

/-- First match of the regular expression `rate=(\d+)` over a character
sequence: scan left to right for the literal `rate=` followed by at least one
digit and return the value of the maximal digit run; `none` when no position
matches. -/
def findRate : List Char → Option ℕ
  | [] => none
  | c :: rest =>
    if c = 'r' ∧ rest.take 4 = ['a', 't', 'e', '='] then
      match (rest.drop 4).takeWhile Char.isDigit with
      | [] => findRate rest
      | ds => some (digitsToNat ds)
    else findRate rest

/-- The fallback MIME descriptor substituted by `mimeType || 'audio/L16; rate=24000'`. -/
def defaultMimeChars : List Char := "audio/L16; rate=24000".toList

/-- The sample rate computed by `handleGenerate` from an optional MIME
descriptor: a falsy descriptor (absent or empty) is replaced by the default
string, then `match(/rate=(\d+)/)` is consulted, with 24000 when it fails. -/
def effectiveSampleRate (mimeType : Option (List Char)) : ℕ :=
  let mt := match mimeType with
            | none => defaultMimeChars
            | some s => if s.isEmpty then defaultMimeChars else s
  match findRate mt with
  | some n => n
  | none => 24000

/-- Claim C8: the sample rate used downstream is the integer parsed from the
descriptor's `rate=` parameter, and 24000 whenever the descriptor is absent or
no `rate=` parameter with digits can be parsed from it. -/
theorem mime_rate_parsing_c8 (mimeType : Option (List Char)) :
    (∀ n, mimeType.bind findRate = some n → effectiveSampleRate mimeType = n) ∧
    (mimeType.bind findRate = none → effectiveSampleRate mimeType = 24000) := by
  have hdef : findRate defaultMimeChars = some 24000 := by decide
  cases mimeType with
  | none =>
    refine ⟨fun n hn => by simp at hn, fun _ => ?_⟩
    show (match findRate defaultMimeChars with
          | some n => n
          | none => 24000) = 24000
    rw [hdef]
  | some s =>
    by_cases hs : s.isEmpty
    · have hsnil : s = [] := List.isEmpty_iff.mp hs
      subst hsnil
      refine ⟨fun n hn => by simp [findRate] at hn, fun _ => ?_⟩
      show (match findRate (if ([] : List Char).isEmpty then defaultMimeChars else [])
            with
            | some n => n
            | none => 24000) = 24000
      rw [if_pos hs, hdef]
    · constructor
      · intro n hn
        have hn' : findRate s = some n := by simpa using hn
        show (match findRate (if s.isEmpty then defaultMimeChars else s) with
              | some n => n
              | none => 24000) = n
        rw [if_neg hs, hn']
      · intro hn
        have hn' : findRate s = none := by simpa using hn
        show (match findRate (if s.isEmpty then defaultMimeChars else s) with
              | some n => n
              | none => 24000) = 24000
        rw [if_neg hs, hn']

/-- Witness for C8: parsing `audio/L16; rate=44100` yields 44100, and an
unparsable descriptor falls back to 24000. -/
theorem mime_rate_parsing_c8_witness :
    ((some ("audio/L16; rate=44100".toList)).bind findRate = some 44100 ∧
      effectiveSampleRate (some ("audio/L16; rate=44100".toList)) = 44100) ∧
    ((some ("audio/mpeg".toList)).bind findRate = none ∧
      effectiveSampleRate (some ("audio/mpeg".toList)) = 24000) :=
  ⟨⟨by decide, (mime_rate_parsing_c8 _).1 44100 (by decide)⟩,
    ⟨by decide, (mime_rate_parsing_c8 _).2 (by decide)⟩⟩

/-- The `inlineData` of the first candidate part of a provider response:
optional base64 audio payload (modelled by the byte values of its decoded
binary string) and optional MIME type. -/
structure InlinePart where
  data : Option (List ℕ)
  mimeType : Option String

/-- A validated TTS payload `{audioData, mimeType}` as returned by `callTtsApi`. -/
structure TtsPayload where
  audioData : List ℕ
  mimeType : String

/-- One fetch attempt of `callTtsApi`, as observed by the retry loop: an OK
response with its (possibly missing) extracted first part, a non-OK HTTP
status with its body text, or a thrown network/JSON error. -/
inductive FetchAttempt where
  | ok (part : Option InlinePart)
  | httpStatus (code : ℕ) (body : String)
  | thrown (msg : String)

/-- Outcome of one iteration of the retry loop: return a payload, throw a
message (caught and retried unless it is the last attempt), or wait and
retry (status 429 or 5xx). -/
inductive AttemptStep where
  | success (p : TtsPayload)
  | raise (msg : String)
  | retry

/-- The JS test `mimeType?.startsWith("audio/")` (falsy when `mimeType` is
absent). -/
def mimeStartsWithAudio : Option String → Bool
  | none => false
  | some mt => mt.startsWith "audio/"

/-- Extraction of `{audioData, mimeType}` in `callTtsApi`'s OK branch: the
guard `audioData && mimeType?.startsWith("audio/")` requires a truthy (present
and non-empty) payload and a matching MIME type. -/
def extractPayload (part : Option InlinePart) : Option TtsPayload :=
  match part with
  | none => none
  | some p =>
    match p.data with
    | none => none
    | some d =>
      if !d.isEmpty && mimeStartsWithAudio p.mimeType then
        some ⟨d, p.mimeType.getD ""⟩
      else none

/-- One iteration of `callTtsApi`'s retry loop over a fetch attempt. -/
def attemptStep : FetchAttempt → AttemptStep
  | .ok part =>
    match extractPayload part with
    | some pay => .success pay
    | none => .raise "La respuesta de la API no contenía datos de audio válidos."
  | .httpStatus code body =>
    if code = 401 then
      .raise "Error de autenticación (401). La clave de API no es válida o no está configurada."
    else if code = 429 ∨ 500 ≤ code then .retry
    else .raise ("Error en la API: " ++ toString code ++ ". " ++ body)
  | .thrown msg => .raise msg

/-- The `callTtsApi` of `src/App.jsx`: three attempts; a throw during attempts
0 and 1 is caught and retried, a throw at attempt 2 propagates, and a loop
that ends still retrying throws the final failure message. -/
def callTtsApi (a0 a1 a2 : FetchAttempt) : Except String TtsPayload :=
  match attemptStep a0 with
  | .success p => .ok p
  | _ =>
    match attemptStep a1 with
    | .success p => .ok p
    | _ =>
      match attemptStep a2 with
      | .success p => .ok p
      | .raise m => .error m
      | .retry =>
        .error "No se pudo obtener una respuesta de la API después de varios intentos."

/-- The observable outcome of one generate cycle: the status banner and the
produced WAV container / object URL, if any. -/
structure GenOutcome where
  statusType : String
  statusMsg : String
  wavContainer : Option (List ℕ)
  audioUrl : Option (List ℕ)

/-- The `base64ToArrayBuffer` helper, applied to the character codes of the
`atob` output (`atob` itself is a browser primitive): each code is stored into
a `Uint8Array`, which truncates to a byte. -/
def base64ToArrayBuffer (binaryCodes : List ℕ) : List ℕ :=
  binaryCodes.map (fun c => c % 256)

/-- JS `new Int16Array(arrayBuffer)`: ECMAScript requires the buffer byte
length to be a multiple of the element size 2, else a `RangeError` is thrown;
on success the bytes are viewed as little-endian signed 16-bit values. -/
def int16ArrayOfBuffer (bytes : List ℕ) : Except String (List ℤ) :=
  if bytes.length % 2 = 0 then .ok (decodePCM16 bytes)
  else .error "RangeError: byte length of Int16Array should be a multiple of 2"

/-- The generation path of `App.jsx`'s `handleGenerate` after text validation:
a thrown API error is caught and surfaced as an error status with no audio;
otherwise the MIME rate is parsed, the payload is base64-decoded and viewed as
16-bit samples (a throw there is caught by the same `catch`), and the WAV
container with its object URL is produced under a success status. -/
def handleGenerateA (api : Except String TtsPayload) : GenOutcome :=
  match api with
  | .error m => ⟨"error", "Error: " ++ m, none, none⟩
  | .ok payload =>
    let sampleRate := effectiveSampleRate (some payload.mimeType.toList)
    match int16ArrayOfBuffer (base64ToArrayBuffer payload.audioData) with
    | .error m => ⟨"error", "Error: " ++ m, none, none⟩
    | .ok pcm16 =>
      let wav := pcmToWav pcm16 sampleRate
      ⟨"success", "¡Audio generado con éxito!", some wav, some wav⟩

/-- The JSON body returned by the backend route `/api/generate-tts`. -/
structure ServerBody where
  audioData : Option (List ℕ)
  mimeType : Option String
  error : Option String

/-- JS truthiness of an optional binary-string payload (absent or empty is
falsy). -/
def jsTruthyBytes : Option (List ℕ) → Bool
  | none => false
  | some d => !d.isEmpty

/-- JS truthiness of an optional string (absent or empty is falsy). -/
def jsTruthyStr : Option String → Bool
  | none => false
  | some s => !s.isEmpty

/-- The backend route of `backend/server.js`, for a provider response whose
first part is given (request validation and API-key checks passed): status 200
with `{audioData, mimeType}` when both are truthy, else status 500 with the
validation error body. -/
def serverGenerateTts (part : Option InlinePart) : ℕ × ServerBody :=
  let audioData := part.bind InlinePart.data
  let mimeType := part.bind InlinePart.mimeType
  if jsTruthyBytes audioData && jsTruthyStr mimeType then
    (200, ⟨audioData, mimeType, none⟩)
  else
    (500, ⟨none, none,
      some "La respuesta de la API no contenía datos de audio válidos."⟩)

/-- The front-end `callBackendApi` of `src/unnamed/part_001`: a non-OK status
throws the body's `error` field when truthy, else a generic status message; an
OK status resolves with the parsed body. -/
def callBackendApi (status : ℕ) (body : ServerBody) : Except String ServerBody :=
  if 200 ≤ status ∧ status < 300 then .ok body
  else
    .error (match body.error with
            | some e => if e.isEmpty then "Error del servidor: " ++ toString status else e
            | none => "Error del servidor: " ++ toString status)

/-- The generation path of `part_001`'s `handleGenerate` after the backend
call: a thrown error is surfaced as an error status; an OK body is processed
only under `if (result && result.audioData)` — when `audioData` is falsy the
branch is skipped and the cleared status is left in place. -/
def handleGenerateB (api : Except String ServerBody) : GenOutcome :=
  match api with
  | .error m => ⟨"error", "Error: " ++ m, none, none⟩
  | .ok result =>
    if jsTruthyBytes result.audioData then
      let sampleRate := effectiveSampleRate (result.mimeType.map String.toList)
      match int16ArrayOfBuffer (base64ToArrayBuffer (result.audioData.getD [])) with
      | .error m => ⟨"error", "Error: " ++ m, none, none⟩
      | .ok pcm16 =>
        let wav := pcmToWav pcm16 sampleRate
        ⟨"success", "¡Audio generado con éxito!", some wav, some wav⟩
    else ⟨"", "", none, none⟩

/-- Claim C9: when the upstream response carries no `audioData`, both observed
wirings — the direct-call variant (`App.jsx`: `callTtsApi` throws its
validation error, caught by `handleGenerate`) and the proxied variant
(`part_001` with the backend: the server answers 500 with the validation
error, which `callBackendApi` throws) — surface the validation error message
as a user-visible error status and produce no WAV container and no playable
URL. -/
theorem missing_audio_data_c9 (part : Option InlinePart)
    (hmiss : part.bind InlinePart.data = none) :
    ((handleGenerateA (callTtsApi (.ok part) (.ok part) (.ok part))).statusType =
        "error" ∧
      (handleGenerateA (callTtsApi (.ok part) (.ok part) (.ok part))).statusMsg =
        "Error: La respuesta de la API no contenía datos de audio válidos." ∧
      (handleGenerateA (callTtsApi (.ok part) (.ok part) (.ok part))).wavContainer =
        none ∧
      (handleGenerateA (callTtsApi (.ok part) (.ok part) (.ok part))).audioUrl =
        none) ∧
    ((handleGenerateB (callBackendApi (serverGenerateTts part).1
        (serverGenerateTts part).2)).statusType = "error" ∧
      (handleGenerateB (callBackendApi (serverGenerateTts part).1
        (serverGenerateTts part).2)).statusMsg =
        "Error: La respuesta de la API no contenía datos de audio válidos." ∧
      (handleGenerateB (callBackendApi (serverGenerateTts part).1
        (serverGenerateTts part).2)).wavContainer = none ∧
      (handleGenerateB (callBackendApi (serverGenerateTts part).1
        (serverGenerateTts part).2)).audioUrl = none) := by
  have hext : extractPayload part = none := by
    cases part with
    | none => rfl
    | some p =>
      have hd : p.data = none := by simpa using hmiss
      simp [extractPayload, hd]
  have hstep : attemptStep (.ok part) =
      .raise "La respuesta de la API no contenía datos de audio válidos." := by
    simp [attemptStep, hext]
  have hcall : callTtsApi (.ok part) (.ok part) (.ok part) =
      .error "La respuesta de la API no contenía datos de audio válidos." := by
    simp [callTtsApi, hstep]
  have hserver : serverGenerateTts part = (500, ⟨none, none,
      some "La respuesta de la API no contenía datos de audio válidos."⟩) := by
    simp [serverGenerateTts, hmiss, jsTruthyBytes]
  refine ⟨?_, ?_⟩
  · rw [hcall]
    exact ⟨rfl, rfl, rfl, rfl⟩
  · rw [hserver]
    exact ⟨rfl, rfl, rfl, rfl⟩

/-- Witness for C9: a concrete provider part with a MIME type but no
`audioData` field. -/
theorem missing_audio_data_c9_witness :
    ((some (InlinePart.mk none (some "audio/L16; rate=24000"))).bind
        InlinePart.data = none) ∧
    (((handleGenerateA (callTtsApi
          (.ok (some (InlinePart.mk none (some "audio/L16; rate=24000"))))
          (.ok (some (InlinePart.mk none (some "audio/L16; rate=24000"))))
          (.ok (some (InlinePart.mk none (some "audio/L16; rate=24000")))))).statusType =
        "error" ∧
      (handleGenerateA (callTtsApi
          (.ok (some (InlinePart.mk none (some "audio/L16; rate=24000"))))
          (.ok (some (InlinePart.mk none (some "audio/L16; rate=24000"))))
          (.ok (some (InlinePart.mk none (some "audio/L16; rate=24000")))))).statusMsg =
        "Error: La respuesta de la API no contenía datos de audio válidos." ∧
      (handleGenerateA (callTtsApi
          (.ok (some (InlinePart.mk none (some "audio/L16; rate=24000"))))
          (.ok (some (InlinePart.mk none (some "audio/L16; rate=24000"))))
          (.ok (some (InlinePart.mk none (some "audio/L16; rate=24000")))))).wavContainer =
        none ∧
      (handleGenerateA (callTtsApi
          (.ok (some (InlinePart.mk none (some "audio/L16; rate=24000"))))
          (.ok (some (InlinePart.mk none (some "audio/L16; rate=24000"))))
          (.ok (some (InlinePart.mk none (some "audio/L16; rate=24000")))))).audioUrl =
        none) ∧
    ((handleGenerateB (callBackendApi
        (serverGenerateTts (some (InlinePart.mk none (some "audio/L16; rate=24000")))).1
        (serverGenerateTts (some (InlinePart.mk none (some "audio/L16; rate=24000")))).2)).statusType =
        "error" ∧
      (handleGenerateB (callBackendApi
        (serverGenerateTts (some (InlinePart.mk none (some "audio/L16; rate=24000")))).1
        (serverGenerateTts (some (InlinePart.mk none (some "audio/L16; rate=24000")))).2)).statusMsg =
        "Error: La respuesta de la API no contenía datos de audio válidos." ∧
      (handleGenerateB (callBackendApi
        (serverGenerateTts (some (InlinePart.mk none (some "audio/L16; rate=24000")))).1
        (serverGenerateTts (some (InlinePart.mk none (some "audio/L16; rate=24000")))).2)).wavContainer =
        none ∧
      (handleGenerateB (callBackendApi
        (serverGenerateTts (some (InlinePart.mk none (some "audio/L16; rate=24000")))).1
        (serverGenerateTts (some (InlinePart.mk none (some "audio/L16; rate=24000")))).2)).audioUrl =
        none)) :=
  ⟨rfl, missing_audio_data_c9 _ rfl⟩

/-- Claim C10: viewing the base64-decoded payload as 16-bit samples
(`new Int16Array(buffer)`) succeeds exactly when the decoded byte length is
even; every odd-length payload makes the construction throw, which aborts the
decode path with an error outcome and no container — an evenness precondition
on the upstream payload that the spec never states. -/
theorem int16_evenness_c10 (codes : List ℕ) (mt : String) :
    (codes.length % 2 = 1 →
      int16ArrayOfBuffer (base64ToArrayBuffer codes) =
        .error "RangeError: byte length of Int16Array should be a multiple of 2" ∧
      (handleGenerateA (.ok ⟨codes, mt⟩)).statusType = "error" ∧
      (handleGenerateA (.ok ⟨codes, mt⟩)).wavContainer = none ∧
      (handleGenerateA (.ok ⟨codes, mt⟩)).audioUrl = none) ∧
    (codes.length % 2 = 0 →
      (∃ pcm16, int16ArrayOfBuffer (base64ToArrayBuffer codes) = .ok pcm16) ∧
      (handleGenerateA (.ok ⟨codes, mt⟩)).statusType = "success" ∧
      (handleGenerateA (.ok ⟨codes, mt⟩)).wavContainer ≠ none) := by
  have hlen : (base64ToArrayBuffer codes).length = codes.length := by
    simp [base64ToArrayBuffer]
  constructor
  · intro hodd
    have herr : int16ArrayOfBuffer (base64ToArrayBuffer codes) =
        .error "RangeError: byte length of Int16Array should be a multiple of 2" := by
      rw [int16ArrayOfBuffer, if_neg (by rw [hlen]; omega)]
    refine ⟨herr, ?_, ?_, ?_⟩ <;> simp [handleGenerateA, herr]
  · intro heven
    have hok : int16ArrayOfBuffer (base64ToArrayBuffer codes) =
        .ok (decodePCM16 (base64ToArrayBuffer codes)) := by
      rw [int16ArrayOfBuffer, if_pos (by rw [hlen]; omega)]
    refine ⟨⟨_, hok⟩, ?_, ?_⟩ <;> simp [handleGenerateA, hok]

/-- Witness for C10: a three-byte decoded payload aborts the decode path with
the range error. -/
theorem int16_evenness_c10_witness :
    (([1, 2, 3] : List ℕ).length % 2 = 1) ∧
    (int16ArrayOfBuffer (base64ToArrayBuffer [1, 2, 3]) =
        .error "RangeError: byte length of Int16Array should be a multiple of 2" ∧
      (handleGenerateA (.ok ⟨[1, 2, 3], "audio/L16; rate=24000"⟩)).statusType =
        "error" ∧
      (handleGenerateA (.ok ⟨[1, 2, 3], "audio/L16; rate=24000"⟩)).wavContainer =
        none ∧
      (handleGenerateA (.ok ⟨[1, 2, 3], "audio/L16; rate=24000"⟩)).audioUrl = none) :=
  ⟨by decide, (int16_evenness_c10 [1, 2, 3] "audio/L16; rate=24000").1 (by decide)⟩
